import Mathlib

/-!
# Verification of the valutatrade_hub rate cache and valuation engine

Shallow embedding of the repository's core code:

* `valutatrade_hub/core/utils.py` — `validate_currency_code`, `get_rate_key`,
  and the rates dictionary shape (`rates.json`).
* `valutatrade_hub/core/usecases.py` — `RateService.get_rate` and the
  valuation loop of `PortfolioService.show_portfolio`.
* `valutatrade_hub/core/models.py` — `Portfolio.get_total_value`.
* `valutatrade_hub/core/currencies.py` — the currency registry and
  `get_currency`.
* `valutatrade_hub/parser_service/updater.py` — `RatesUpdater.run_update`.
* `valutatrade_hub/parser_service/storage.py` — `RatesStorage.save_rates`,
  `_update_cache`, `_save_to_history`.

Python floats are modelled as rationals (`ℚ`); Python dicts of JSON objects
are modelled as insertion-ordered association lists (`List (String × _)`)
with first-match lookup, which agrees with dict lookup because dict keys are
unique.  Functions that raise exceptions are modelled with `Except`.
Formatted output strings (f-strings) are modelled by the data interpolated
into them: two outputs are distinguishable to the caller iff the
interpolated data differ.
-/

/-- Python `str.strip()` (over the character list; `String.trim` in core is
not kernel-reducible, so the same whitespace-stripping is written out). -/
def pyStrip (s : String) : String :=
  ⟨((s.data.dropWhile Char.isWhitespace).reverse.dropWhile
      Char.isWhitespace).reverse⟩

/-- Python `str.upper()` over the character list. -/
def pyUpper (s : String) : String :=
  ⟨s.data.map Char.toUpper⟩

/-- Python `str.lower()` over the character list. -/
def pyLower (s : String) : String :=
  ⟨s.data.map Char.toLower⟩

/-- Split a character list on a separator (all occurrences). -/
def splitChar (sep : Char) : List Char → List (List Char)
  | [] => [[]]
  | c :: t =>
    match splitChar sep t with
    | h :: r => if c = sep then [] :: h :: r else (c :: h) :: r
    | [] => [[c]]

/-- Python `s.split("_")` (as in `pair_key.split("_")`), over the character
list. -/
def pySplitUnderscore (s : String) : List String :=
  (splitChar '_' s.data).map (fun l => ⟨l⟩)

/-- One value of the rates dictionary (`rates.json` in the legacy
`DataStorage` layout): a JSON object read with `.get("rate", 0)` and
`.get("updated_at", ...)`, so both fields are optional. -/
structure RateEntry where
  rate : Option ℚ
  updated_at : Option String
  deriving Repr, DecidableEq

/-- Python truthiness of a rate-entry dict: an empty dict (`{}`) is falsy.
With the two modelled fields, the dict is empty iff both are absent. -/
def RateEntry.truthy (e : RateEntry) : Bool :=
  e.rate.isSome || e.updated_at.isSome

/-- The rates dictionary: pair-key → entry, in insertion order. -/
def RatesDict : Type := List (String × RateEntry)

/-- `d.get(k)` on an association list: value of the first matching key. -/
def dictGet {α : Type} (l : List (String × α)) (k : String) : Option α :=
  (l.find? (fun p => p.1 = k)).map (fun p => p.2)

/-- `rates.get(key)` followed by the `if rate_data:` truthiness test in
`get_rate` / `show_portfolio`: a present-but-falsy (empty) entry behaves
like an absent one. -/
def dictGetTruthy (rates : List (String × RateEntry)) (k : String) :
    Option RateEntry :=
  match dictGet rates k with
  | some e => if e.truthy then some e else none
  | none => none

/-- `core/utils.py: validate_currency_code` — raises `ValueError` when the
code is empty or whitespace-only, otherwise returns `code.strip().upper()`. -/
def validate_currency_code (currency_code : String) : Except String String :=
  if currency_code = "" ∨ pyStrip currency_code = "" then
    .error "Код валюты не может быть пустым"
  else
    .ok (pyUpper (pyStrip currency_code))

/-- `core/utils.py: get_rate_key` — the canonical pair key `FROM_TO`. -/
def get_rate_key (from_currency to_currency : String) : String :=
  pyUpper from_currency ++ "_" ++ pyUpper to_currency

/-- Result of `RateService.get_rate` (`core/usecases.py`), with the message
strings abstracted to the data interpolated into them:

* `error msg` — the `(False, str(e))` return after a `ValueError` from
  `validate_currency_code`;
* `found from to rate reverse_rate updated_at` — a `(True, ...)` return whose
  message interpolates exactly these five values;
* `unavailable from to` — the `(False, "Курс from→to недоступен...")` return. -/
inductive GetRateResult where
  | error (msg : String)
  | found (fromC toC : String) (rate reverse_rate : ℚ) (updated_at : String)
  | unavailable (fromC toC : String)
  deriving Repr, DecidableEq

/-- `core/usecases.py: RateService.get_rate` (lines 416–477).  Validates both
codes, looks up the direct key, falls back to the inverse key, and derives
`1 / reverse_rate` only when the stored inverse rate is `> 0`.  The
function consults no clock and reads no TTL setting: the source performs no
freshness comparison anywhere on this path. -/
def get_rate (rates : RatesDict) (from_currency to_currency : String) :
    GetRateResult :=
  match validate_currency_code from_currency with
  | .error m => .error m
  | .ok fromC =>
  match validate_currency_code to_currency with
  | .error m => .error m
  | .ok toC =>
    let rate_key := get_rate_key fromC toC
    match dictGetTruthy rates rate_key with
    | none =>
      let reverse_key := get_rate_key toC fromC
      match dictGetTruthy rates reverse_key with
      | some reverse_data =>
        let reverse_rate := reverse_data.rate.getD 0
        if 0 < reverse_rate then
          .found fromC toC (1 / reverse_rate) reverse_rate
            (reverse_data.updated_at.getD "неизвестно")
        else
          .unavailable fromC toC
      | none => .unavailable fromC toC
    | some rate_data =>
      let rate := rate_data.rate.getD 0
      let reverse_rate := if 0 < rate then 1 / rate else 0
      .found fromC toC rate reverse_rate
        (rate_data.updated_at.getD "неизвестно")

/-- `infra/settings.py: SettingsLoader._load_settings` — the configured TTL,
`"RATES_TTL_SECONDS": 300`.  No function in the repository reads this key. -/
def RATES_TTL_SECONDS : ℕ := 300

/-- The four bundled default pairs of `core/utils.py: DataStorage.__init__`
(`EUR_USD`, `BTC_USD`, `RUB_USD`, `ETH_USD`); their `updated_at` values are
`datetime.now().isoformat()` at creation, modelled by a placeholder string. -/
def defaultPairsStore : RatesDict :=
  [ ("EUR_USD", ⟨some (10786/10000), some "t0"⟩),
    ("BTC_USD", ⟨some (5933721/100), some "t0"⟩),
    ("RUB_USD", ⟨some (1016/100000), some "t0"⟩),
    ("ETH_USD", ⟨some 3720, some "t0"⟩) ]

/-- `core/currencies.py` — a registry entry: `FiatCurrency` or
`CryptoCurrency` with its metadata. -/
inductive Currency where
  | fiat (name code issuing_country : String)
  | crypto (name code algorithm : String) (market_cap : ℚ)
  deriving Repr, DecidableEq

/-- `core/currencies.py: _CURRENCY_REGISTRY` — the closed registry of
supported codes. -/
def CURRENCY_REGISTRY : List (String × Currency) :=
  [ ("USD", .fiat "US Dollar" "USD" "United States"),
    ("EUR", .fiat "Euro" "EUR" "Eurozone"),
    ("GBP", .fiat "British Pound" "GBP" "United Kingdom"),
    ("RUB", .fiat "Russian Ruble" "RUB" "Russian Federation"),
    ("BTC", .crypto "Bitcoin" "BTC" "SHA-256" (112/100 * 10^12)),
    ("ETH", .crypto "Ethereum" "ETH" "Ethash" (45/10 * 10^11)),
    ("SOL", .crypto "Solana" "SOL" "PoH" (78/10 * 10^10)) ]

/-- `core/currencies.py: get_currency` — registry lookup of the upper-cased
code; raises `CurrencyNotFoundError(code)` (carrying the original code) when
the code is not registered. -/
def get_currency (code : String) : Except String Currency :=
  match dictGet CURRENCY_REGISTRY (pyUpper code) with
  | some c => .ok c
  | none => .error code

/-- `core/models.py: Portfolio.get_total_value` (lines 323–355).  Adds the
balance directly for the base currency; otherwise adds `balance * rate` when
the direct key `CODE_BASE` is present in `exchange_rates` (plain key
membership, no truthiness test and no inverse fallback); otherwise skips the
currency. -/
def get_total_value (wallets : List (String × ℚ)) (base_currency : String)
    (exchange_rates : RatesDict) : ℚ :=
  let base := pyUpper base_currency
  wallets.foldl
    (fun total cw =>
      if cw.1 = base then total + cw.2
      else
        match dictGet exchange_rates (cw.1 ++ "_" ++ base) with
        | some e => total + cw.2 * e.rate.getD 0
        | none => total)
    0

/-- The data interpolated into one report line of
`PortfolioService.show_portfolio`:
`f"- {currency_code}: {balance_str}  → {format_currency(value_in_base, base)}"`.
The rendered string is a function of exactly these fields (plus the base
currency, constant across the report). -/
structure ReportLine where
  currency_code : String
  balance : ℚ
  value_in_base : ℚ
  deriving Repr, DecidableEq

/-- The per-currency conversion of `PortfolioService.show_portfolio`
(`core/usecases.py` lines 225–245): base currency → balance itself; else the
direct key (dict truthiness test) → `balance * rate`; else the reverse key →
`balance / reverse_rate` when `reverse_rate > 0`, else `0`; else `0`. -/
def portfolio_line_value (rates : RatesDict) (base currency_code : String)
    (balance : ℚ) : ℚ :=
  if currency_code = base then balance
  else
    match dictGetTruthy rates (get_rate_key currency_code base) with
    | some rate_data => balance * rate_data.rate.getD 0
    | none =>
      match dictGetTruthy rates (get_rate_key base currency_code) with
      | some reverse_data =>
        let reverse_rate := reverse_data.rate.getD 0
        if 0 < reverse_rate then balance / reverse_rate else 0
      | none => 0

/-- Lexicographic `≤` on character lists (the order Python uses to compare
strings). -/
def charListLe : List Char → List Char → Bool
  | [], _ => true
  | _ :: _, [] => false
  | a :: as, b :: bs =>
    if a < b then true else if b < a then false else charListLe as bs

/-- Lexicographic `≤` on strings. -/
def keyLe (a b : String) : Bool :=
  charListLe a.data b.data

/-- Stable insertion into a list sorted by key (Python `sorted` over dict
items compares the string keys; wallet keys are unique). -/
def insertSorted (p : String × ℚ) : List (String × ℚ) → List (String × ℚ)
  | [] => [p]
  | q :: t => if keyLe p.1 q.1 then p :: q :: t else q :: insertSorted p t

/-- `sorted(wallets.items())` — sort the wallet entries by currency code. -/
def sortByKey (l : List (String × ℚ)) : List (String × ℚ) :=
  l.foldr insertSorted []

/-- `core/usecases.py: PortfolioService.show_portfolio` (lines 206–263),
from the point where the base currency is validated: produces the per-line
report data and the running total.  The login check, portfolio loading and
the surrounding message strings are outside this embedding; an empty wallet
dict short-circuits in the source with an "empty portfolio" message,
modelled as the empty report. -/
def show_portfolio_report (wallets : List (String × ℚ))
    (base_currency : String) (rates : RatesDict) :
    Except String (List ReportLine × ℚ) :=
  match validate_currency_code base_currency with
  | .error m => .error m
  | .ok base =>
    if wallets.isEmpty then .ok ([], 0)
    else
      .ok ((sortByKey wallets).foldl
        (fun acc cw =>
          let v := portfolio_line_value rates base cw.1 cw.2
          (acc.1 ++ [⟨cw.1, cw.2, v⟩], acc.2 + v))
        ([], 0))

/-- One entry of the parser-service rate cache
(`storage.py: _update_cache` writes all three fields). -/
structure CachedPair where
  rate : ℚ
  updated_at : String
  source : String
  deriving Repr, DecidableEq

/-- The parser-service rate cache (`rates.json` in the `DatabaseManager`
layout): `pairs` mapping plus `last_refresh`.  The source's
`if "pairs" not in cache` initialisation is represented by `pairs` always
being a field. -/
structure RatesCache where
  pairs : List (String × CachedPair)
  last_refresh : Option String
  deriving Repr, DecidableEq

/-- One append-only history record (`storage.py: _save_to_history`). -/
structure HistoryRecord where
  id : String
  from_currency : String
  to_currency : String
  rate : ℚ
  timestamp : String
  source : String
  deriving Repr, DecidableEq

/-- The persisted parser-service state: the rate cache (`rates.json`) and
the history log (`exchange_rates.json`). -/
structure StoreState where
  cache : RatesCache
  history : List HistoryRecord
  deriving Repr, DecidableEq

/-- Python dict assignment `d[k] = v`: replace the (unique) existing
occurrence in place, otherwise append (insertion order preserved). -/
def dictInsert {α : Type} : List (String × α) → String → α →
    List (String × α)
  | [], k, v => [(k, v)]
  | p :: t, k, v => if p.1 = k then (k, v) :: t else p :: dictInsert t k v

/-- Whether `sub` occurs as a contiguous substring of the character list. -/
def listIsInfix (a : List Char) : List Char → Bool
  | [] => a.isEmpty
  | c :: t => a.isPrefixOf (c :: t) || listIsInfix a t

/-- Python `sub in s` — substring containment. -/
def strContains (s sub : String) : Bool :=
  listIsInfix sub.data s.data

/-- The pair-upsert loop of `storage.py: _update_cache`: for every fetched
`(pair_key, rate)`, `cache["pairs"][pair_key] = {rate, updated_at, source}`. -/
def upsertPairs (pairs : List (String × CachedPair))
    (rates : List (String × ℚ)) (timestamp source : String) :
    List (String × CachedPair) :=
  match rates with
  | [] => pairs
  | (k, r) :: rest =>
    upsertPairs (dictInsert pairs k ⟨r, timestamp, source⟩) rest
      timestamp source

/-- `storage.py: _update_cache` — upsert every fetched pair and set
`last_refresh`. -/
def update_cache (rates : List (String × ℚ)) (timestamp source : String)
    (cache : RatesCache) : RatesCache :=
  { pairs := upsertPairs cache.pairs rates timestamp source,
    last_refresh := some timestamp }

/-- The append loop of `storage.py: _save_to_history`: build a record with
id `pair_key_timestamp`, skipping ids already present (idempotence).  The
source unpacks `pair_key.split("_")` into exactly two components and raises
otherwise; keys that do not split into two parts are skipped here (no claim
exercises them). -/
def saveToHistory (rates : List (String × ℚ)) (timestamp source : String)
    (history : List HistoryRecord) : List HistoryRecord :=
  match rates with
  | [] => history
  | (k, r) :: rest =>
    match pySplitUnderscore k with
    | [from_curr, to_curr] =>
      if history.any (fun h => h.id = k ++ "_" ++ timestamp) then
        saveToHistory rest timestamp source history
      else
        saveToHistory rest timestamp source
          (history ++
            [⟨k ++ "_" ++ timestamp, from_curr, to_curr, r, timestamp,
              source⟩])
    | _ => saveToHistory rest timestamp source history

/-- `storage.py: RatesStorage.save_rates` — update the cache and append to
the history.  The source stamps both with its own `datetime.now()`;
`now` models that instant. -/
def save_rates (rates : List (String × ℚ)) (source : String)
    (st : StoreState) (now : String) : StoreState :=
  { cache := update_cache rates now source st.cache,
    history := saveToHistory rates now source st.history }

/-- `str(ApiRequestError(reason))` (`core/exceptions.py`). -/
def apiRequestErrorStr (reason : String) : String :=
  "Ошибка при обращении к внешнему API: " ++ reason

/-- The outcome of one provider's `fetch_rates()` call: either a pair-keyed
rate mapping, or an `ApiRequestError` carrying its reason
(`parser_service/api_clients.py`). -/
def FetchOutcome : Type := Except String (List (String × ℚ))

/-- The error message recorded by `run_update` when a provider raises
`ApiRequestError`: `f"Failed to fetch from {name}: {e}"`. -/
def failMsg (name reason : String) : String :=
  "Failed to fetch from " ++ name ++ ": " ++ apiRequestErrorStr reason

/-- The provider polling loop of `updater.py: run_update` (lines 56–79):
successful non-empty mappings are merged into `all_rates`
(`all_rates.update(rates)`, later keys overwrite), failures append an error
message; one provider's outcome never aborts the loop. -/
def collectLoop (all_rates : List (String × ℚ)) (errors : List String) :
    List (String × FetchOutcome) → List (String × ℚ) × List String
  | [] => (all_rates, errors)
  | (_name, .ok rates) :: rest =>
    if rates.isEmpty then collectLoop all_rates errors rest
    else
      collectLoop (rates.foldl (fun acc kr => dictInsert acc kr.1 kr.2)
        all_rates) errors rest
  | (name, .error reason) :: rest =>
    collectLoop all_rates (errors ++ [failMsg name reason]) rest

/-- The provider selection of `updater.py: run_update` (lines 46–53): no
filter → all clients; a filter matching a registered name
(case-insensitively, via `source_filter.lower()`) → only that client; an
unknown filter → a warning is logged and `clients_to_use` keeps its initial
value, i.e. all clients. -/
def selectClients (clients : List (String × FetchOutcome))
    (source_filter : Option String) : List (String × FetchOutcome) :=
  match source_filter with
  | none => clients
  | some f =>
    let filter_lower := pyLower f
    if clients.any (fun c => c.1 = filter_lower) then
      clients.filter (fun c => c.1 = filter_lower)
    else
      clients

/-- The summary dict returned by a successful `run_update`. -/
structure UpdateSummary where
  total_updated : ℕ
  last_refresh : String
  errors : List String
  deriving Repr, DecidableEq

/-- `parser_service/updater.py: RatesUpdater.run_update` (lines 32–102).
The registered clients (`self.clients`, insertion-ordered name → outcome of
its `fetch_rates()` call) and the persisted state are passed explicitly;
`now` models `datetime.now().isoformat()` (called in `run_update` and again
inside `save_rates`; both calls are modelled as the same instant).  Returns
the summary (or the raised `ApiRequestError`) together with the resulting
persisted state. -/
def run_update (clients : List (String × FetchOutcome))
    (source_filter : Option String) (st : StoreState) (now : String) :
    Except String UpdateSummary × StoreState :=
  let clients_to_use := selectClients clients source_filter
  let collected := collectLoop [] [] clients_to_use
  let all_rates := collected.1
  let errors := collected.2
  if all_rates.isEmpty then
    (.error (apiRequestErrorStr "No rates fetched from any source. Check logs."),
      st)
  else
    (.ok { total_updated := all_rates.length, last_refresh := now,
           errors := errors },
      save_rates all_rates "ParserService" st now)

/-- The initial empty parser-service store
(`DatabaseManager._ensure_data_files` defaults). -/
def emptyStore : StoreState :=
  { cache := { pairs := [], last_refresh := none }, history := [] }

/-- A store holding a single pair whose `updated_at` lies years in the past
(far beyond any 300-second TTL relative to any present instant). -/
def staleStore : RatesDict :=
  [("EUR_USD", ⟨some (10786/10000), some "2020-01-01T00:00:00"⟩)]

/-!
## Claim theorems
-/

/-- C1.  The claim says a stored pair whose `updated_at` is older than the
configured TTL (default 300 s) is reported Unavailable by
`RateService.get_rate`.  The code has no freshness gate: `get_rate` takes no
clock, never compares `updated_at` with anything, and never reads
`RATES_TTL_SECONDS` (which is defined in `infra/settings.py` but consumed
nowhere).  Evaluating the embedded `get_rate` on a pair stamped
`2020-01-01T00:00:00` — stale by years at any later lookup instant — returns
the stored rate as a success instead of Unavailable. -/
theorem c1_stale_entry_still_returned :
    get_rate staleStore "EUR" "USD"
        = .found "EUR" "USD" (10786/10000) (10000/10786) "2020-01-01T00:00:00"
      ∧ RATES_TTL_SECONDS = 300 := by
  constructor
  · simp +decide [get_rate, validate_currency_code, pyStrip, pyUpper,
      get_rate_key, dictGetTruthy, dictGet, staleStore, RateEntry.truthy]
  · rfl

/-- C2.  The claim says `get_rate(A, A)` returns rate 1.0, fresh, without
accessing the store.  The code has no same-currency special case: on the
bundled default store (no `USD_USD` key) the lookup reports Unavailable, and
with a stored `USD_USD` entry of rate 2 it returns 2 (read from the store),
not 1.0 — so the result both differs from 1.0 and depends on the store. -/
theorem c2_same_currency_not_special_cased :
    get_rate defaultPairsStore "USD" "USD" = .unavailable "USD" "USD"
      ∧ get_rate [("USD_USD", ⟨some 2, some "t1"⟩)] "USD" "USD"
          = .found "USD" "USD" 2 (1/2) "t1" := by
  constructor
  · simp +decide [get_rate, validate_currency_code, pyStrip, pyUpper,
      get_rate_key, dictGetTruthy, dictGet, defaultPairsStore,
      RateEntry.truthy]
  · simp +decide [get_rate, validate_currency_code, pyStrip, pyUpper,
      get_rate_key, dictGetTruthy, dictGet, RateEntry.truthy]

/-- C3, literal form refuted.  The claim asks for inverse derivation
whenever the stored inverse rate is non-zero; the code requires it to be
strictly positive (`if reverse_rate > 0`).  With the inverse pair `USD_EUR`
stored at rate −1 (non-zero, any freshness), `get_rate("EUR", "USD")`
reports Unavailable instead of returning `(1/(−1), −1, t)`. -/
theorem c3_negative_inverse_rate_counterexample :
    get_rate [("USD_EUR", ⟨some (-1), some "t2"⟩)] "EUR" "USD"
        = .unavailable "EUR" "USD"
      ∧ get_rate [("USD_EUR", ⟨some (-1), some "t2"⟩)] "EUR" "USD"
          ≠ .found "EUR" "USD" (1/(-1)) (-1) "t2" := by
  constructor
  · simp +decide [get_rate, validate_currency_code, pyStrip, pyUpper,
      get_rate_key, dictGetTruthy, dictGet, RateEntry.truthy]
  · simp +decide [get_rate, validate_currency_code, pyStrip, pyUpper,
      get_rate_key, dictGetTruthy, dictGet, RateEntry.truthy]

/-- C3, amended.  For validated codes with no (truthy) direct entry, if the
stored inverse entry carries a positive rate `r` and timestamp `t`, then
`get_rate` returns rate `1/r`, reverse rate `r`, and timestamp `t`.
(The code checks no freshness, so the conclusion holds for any stored
timestamp; positivity rather than mere non-zeroness is what the source
requires.) -/
theorem c3_inverse_positive_rate_derivation
    (rates : RatesDict) (A B fa tb t : String) (e : RateEntry) (r : ℚ)
    (hA : validate_currency_code A = .ok fa)
    (hB : validate_currency_code B = .ok tb)
    (hd : dictGetTruthy rates (get_rate_key fa tb) = none)
    (hrev : dictGetTruthy rates (get_rate_key tb fa) = some e)
    (hr : e.rate = some r) (hpos : 0 < r) (ht : e.updated_at = some t) :
    get_rate rates A B = .found fa tb (1/r) r t := by
  unfold get_rate
  rw [hA, hB]
  simp only [hd, hrev, hr, ht, Option.getD_some]
  rw [if_pos hpos]

/-- Witness for C3: a concrete store with only `USD_EUR = 2` at timestamp
`t5`; the derived rate for `EUR→USD` is `1/2`. -/
theorem c3_inverse_positive_rate_derivation_witness :
    get_rate [("USD_EUR", ⟨some 2, some "t5"⟩)] "EUR" "USD"
      = .found "EUR" "USD" (1/2) 2 "t5" :=
  c3_inverse_positive_rate_derivation
    [("USD_EUR", ⟨some 2, some "t5"⟩)] "EUR" "USD" "EUR" "USD" "t5"
    ⟨some 2, some "t5"⟩ 2
    (by simp +decide [validate_currency_code, pyStrip, pyUpper])
    (by simp +decide [validate_currency_code, pyStrip, pyUpper])
    (by simp +decide [dictGetTruthy, dictGet, get_rate_key, pyUpper,
      RateEntry.truthy])
    (by simp +decide [dictGetTruthy, dictGet, get_rate_key, pyUpper,
      RateEntry.truthy])
    rfl (by norm_num) rfl

/-- C4.  A stored inverse entry whose rate is zero or negative (or absent,
defaulting to 0) is never used for inverse derivation: with no (truthy)
direct entry, `get_rate` reports the pair Unavailable.  The division
`1 / reverse_rate` sits only inside the branch guarded by
`reverse_rate > 0`, so no division by the stored rate is performed and the
result carries no derived value. -/
theorem c4_nonpositive_inverse_never_used
    (rates : RatesDict) (A B fa tb : String) (e : RateEntry) (r : ℚ)
    (hA : validate_currency_code A = .ok fa)
    (hB : validate_currency_code B = .ok tb)
    (hd : dictGetTruthy rates (get_rate_key fa tb) = none)
    (hrev : dictGetTruthy rates (get_rate_key tb fa) = some e)
    (hr : e.rate = some r) (hle : r ≤ 0) :
    get_rate rates A B = .unavailable fa tb := by
  unfold get_rate
  rw [hA, hB]
  simp only [hd, hrev, hr, Option.getD_some]
  rw [if_neg (not_lt.mpr hle)]

/-- Witness for C4: the inverse pair `USD_EUR` stored with rate 0; the
lookup `EUR→USD` reports Unavailable. -/
theorem c4_nonpositive_inverse_never_used_witness :
    get_rate [("USD_EUR", ⟨some 0, some "t6"⟩)] "EUR" "USD"
      = .unavailable "EUR" "USD" :=
  c4_nonpositive_inverse_never_used
    [("USD_EUR", ⟨some 0, some "t6"⟩)] "EUR" "USD" "EUR" "USD"
    ⟨some 0, some "t6"⟩ 0
    (by simp +decide [validate_currency_code, pyStrip, pyUpper])
    (by simp +decide [validate_currency_code, pyStrip, pyUpper])
    (by simp +decide [dictGetTruthy, dictGet, get_rate_key, pyUpper,
      RateEntry.truthy])
    (by simp +decide [dictGetTruthy, dictGet, get_rate_key, pyUpper,
      RateEntry.truthy])
    rfl (by norm_num)

/-- C9.  The claim says a code outside the closed registry fails with a
terminal unknown-currency error and is never reported as a cache miss.
`get_rate` validates codes only with `validate_currency_code` (non-empty,
upper-cased) and never consults the registry: for the unregistered code
`XYZ` (for which `get_currency` does raise `CurrencyNotFoundError`), the
lookup returns the ordinary "rate unavailable" report — a cache miss, not a
terminal input error. -/
theorem c9_unknown_code_reported_as_cache_miss :
    get_currency "XYZ" = .error "XYZ"
      ∧ validate_currency_code "XYZ" = .ok "XYZ"
      ∧ get_rate defaultPairsStore "XYZ" "USD" = .unavailable "XYZ" "USD" := by
  refine ⟨?_, ?_, ?_⟩
  · simp +decide [get_currency, CURRENCY_REGISTRY, dictGet, pyUpper]
  · simp +decide [validate_currency_code, pyStrip, pyUpper]
  · simp +decide [get_rate, validate_currency_code, pyStrip, pyUpper,
      get_rate_key, dictGetTruthy, dictGet, defaultPairsStore,
      RateEntry.truthy]

/-!
## Update-coordinator lemmas and claims
-/

/-- A provider call that contributes nothing to the merge: it raised, or it
returned an empty mapping. -/
def yieldsNothing (o : FetchOutcome) : Prop :=
  match o with
  | .ok rates => rates = []
  | .error _ => True

/-- The merged mapping accumulated by the polling loop does not depend on
the error messages accumulated so far. -/
theorem collectLoop_fst_errs_indep (cs : List (String × FetchOutcome))
    (acc : List (String × ℚ)) (e₁ e₂ : List String) :
    (collectLoop acc e₁ cs).1 = (collectLoop acc e₂ cs).1 := by
  induction cs generalizing acc e₁ e₂ with
  | nil => rfl
  | cons c rest ih =>
    obtain ⟨n, o⟩ := c
    cases o with
    | ok rates =>
      by_cases h : rates.isEmpty <;> simp [collectLoop, h] <;> exact ih _ _ _
    | error reason => simp [collectLoop]; exact ih _ _ _

/-- Providers that contribute nothing leave the merged mapping unchanged. -/
theorem collectLoop_fst_nothing (cs : List (String × FetchOutcome))
    (acc : List (String × ℚ)) (errs : List String)
    (h : ∀ c ∈ cs, yieldsNothing c.2) :
    (collectLoop acc errs cs).1 = acc := by
  induction cs generalizing acc errs with
  | nil => rfl
  | cons c rest ih =>
    obtain ⟨n, o⟩ := c
    cases o with
    | ok rates =>
      have hr : rates = [] := h (n, .ok rates) (List.mem_cons_self _ _)
      subst hr
      simp only [collectLoop, List.isEmpty_nil, if_pos]
      exact ih _ _ (fun c hc => h c (List.mem_cons_of_mem _ hc))
    | error reason =>
      simp only [collectLoop]
      exact ih _ _ (fun c hc => h c (List.mem_cons_of_mem _ hc))

/-- Every client selected by the source filter is a registered client. -/
theorem mem_selectClients (clients : List (String × FetchOutcome))
    (sf : Option String) (c : String × FetchOutcome)
    (hc : c ∈ selectClients clients sf) : c ∈ clients := by
  unfold selectClients at hc
  cases sf with
  | none => exact hc
  | some f =>
    by_cases h : clients.any (fun p => p.1 = pyLower f) <;> simp [h] at hc
    · exact hc.1
    · exact hc

/-- Removing a failing provider from the polling sequence leaves the merged
mapping unchanged: a failure only appends an error message. -/
theorem collectLoop_error_removed (pre post : List (String × FetchOutcome))
    (n reason : String) (acc : List (String × ℚ)) (errs : List String) :
    (collectLoop acc errs (pre ++ (n, .error reason) :: post)).1
      = (collectLoop acc errs (pre ++ post)).1 := by
  induction pre generalizing acc errs with
  | nil =>
    simp only [List.nil_append, collectLoop]
    exact collectLoop_fst_errs_indep post acc _ _
  | cons c pre' ih =>
    obtain ⟨m, o⟩ := c
    cases o with
    | ok rates =>
      by_cases h : rates.isEmpty <;>
        simp only [List.cons_append, collectLoop, h, if_true, if_false,
          Bool.false_eq_true, ite_false, ite_true] <;>
        exact ih _ _
    | error r' =>
      simp only [List.cons_append, collectLoop]
      exact ih _ _

/-- C5.  With provider `X` failing and provider `Y` returning
`{C_USD: 2.5}`, `run_update` returns `total_updated = 1` with exactly one
error entry — the message naming `X` — and commits `C_USD` to the cache
(and history) at the update timestamp with source `ParserService`.  The
final conjunct is the general guarantee behind the scenario: deleting a
failing provider from the polling sequence never changes the merged
mapping, i.e. one provider's failure cannot prevent another provider's
rates from being merged. -/
theorem c5_partial_provider_failure_merge :
    run_update [("X", .error "network"), ("Y", .ok [("C_USD", 5/2)])] none
        emptyStore "t1"
      = (.ok ⟨1, "t1", [failMsg "X" "network"]⟩,
         { cache := { pairs := [("C_USD", ⟨5/2, "t1", "ParserService"⟩)],
                      last_refresh := some "t1" },
           history := [⟨"C_USD_t1", "C", "USD", 5/2, "t1", "ParserService"⟩] })
    ∧ failMsg "X" "network"
        = "Failed to fetch from X: Ошибка при обращении к внешнему API: network"
    ∧ ∀ (pre post : List (String × FetchOutcome)) (n reason : String)
        (acc : List (String × ℚ)) (errs : List String),
        (collectLoop acc errs (pre ++ (n, .error reason) :: post)).1
          = (collectLoop acc errs (pre ++ post)).1 := by
  refine ⟨?_, ?_, collectLoop_error_removed⟩
  · simp +decide [run_update, selectClients, collectLoop, save_rates,
      update_cache, upsertPairs, saveToHistory, dictInsert, failMsg,
      apiRequestErrorStr, emptyStore, pySplitUnderscore, splitChar]
  · rfl

/-- C6, literal form refuted.  When every provider fails, `run_update` does
raise a hard `ApiRequestError` and leaves the store untouched, but the
raised error is the fixed message "No rates fetched from any source. Check
logs." — it does not include the providers' failure reasons (here
`timeout` and `auth`), which go to the log only. -/
theorem c6_error_omits_provider_reasons :
    run_update [("X", .error "timeout"), ("Y", .error "auth")] none
        emptyStore "t1"
      = (.error
          (apiRequestErrorStr "No rates fetched from any source. Check logs."),
         emptyStore)
    ∧ strContains
        (apiRequestErrorStr "No rates fetched from any source. Check logs.")
        "timeout" = false
    ∧ strContains
        (apiRequestErrorStr "No rates fetched from any source. Check logs.")
        "auth" = false := by
  refine ⟨?_, ?_, ?_⟩
  · simp +decide [run_update, selectClients, collectLoop, emptyStore]
  · decide
  · decide

/-- C6, amended.  When every SELECTED provider (all registered ones for a
filterless run, the filtered subset otherwise) fails or returns nothing,
`run_update` raises a hard `ApiRequestError` with the fixed message "No
rates fetched from any source. Check logs." (per-provider reasons are
logged, not embedded in the error), no commit occurs, and the rate store
and history are returned unchanged. -/
theorem c6_all_providers_fail_store_unchanged
    (clients : List (String × FetchOutcome)) (sf : Option String)
    (st : StoreState) (now : String)
    (h : ∀ c ∈ selectClients clients sf, yieldsNothing c.2) :
    run_update clients sf st now
      = (.error
          (apiRequestErrorStr "No rates fetched from any source. Check logs."),
         st) := by
  have h' : (collectLoop [] [] (selectClients clients sf)).1 = [] :=
    collectLoop_fst_nothing _ _ _ h
  simp only [run_update]
  rw [h']
  rfl

/-- Witness for C6, exercising both a filtered and a filterless run.  With
filter `x` selecting only the failing provider `x` (while the unselected
`y` would have succeeded), and with no filter over two providers that
raise / return an empty mapping, the call returns the hard error and the
empty store is unchanged. -/
theorem c6_all_providers_fail_store_unchanged_witness :
    run_update [("x", .error "down"), ("y", .ok [("C_USD", 5/2)])]
        (some "x") emptyStore "t9"
      = (.error
          (apiRequestErrorStr "No rates fetched from any source. Check logs."),
         emptyStore)
    ∧ run_update [("X", .error "a"), ("Y", .ok [])] none emptyStore "t9"
      = (.error
          (apiRequestErrorStr "No rates fetched from any source. Check logs."),
         emptyStore) :=
  ⟨c6_all_providers_fail_store_unchanged
    [("x", .error "down"), ("y", .ok [("C_USD", 5/2)])] (some "x")
    emptyStore "t9"
    (by
      intro c hc
      simp +decide [selectClients, pyLower] at hc
      subst hc
      trivial),
   c6_all_providers_fail_store_unchanged
    [("X", .error "a"), ("Y", .ok [])] none emptyStore "t9"
    (by
      intro c hc
      rcases List.mem_cons.mp hc with rfl | hc2
      · trivial
      · rcases List.mem_cons.mp hc2 with rfl | hc3
        · rfl
        · cases hc3)⟩

/-- C7, literal form refuted.  The claim says an unknown `source_filter`
makes the update proceed with zero providers selected (which, per the
code's own empty-merge branch, would end in the hard "no rates" error, as
the second conjunct shows for an empty provider list).  Instead, with one
working provider and the unknown filter `bogus`, the update succeeds with
`total_updated = 1`: the unknown filter is ignored and all registered
providers run. -/
theorem c7_unknown_filter_still_updates :
    (run_update [("y", .ok [("C_USD", 5/2)])] (some "bogus") emptyStore
        "t1").1 = .ok ⟨1, "t1", []⟩
    ∧ run_update [] none emptyStore "t1"
        = (.error
            (apiRequestErrorStr "No rates fetched from any source. Check logs."),
           emptyStore) := by
  constructor
  · simp +decide [run_update, selectClients, collectLoop, save_rates,
      update_cache, upsertPairs, saveToHistory, dictInsert, emptyStore,
      pyLower, pySplitUnderscore, splitChar]
  · simp +decide [run_update, selectClients, collectLoop, emptyStore]

/-- A filter value matching no registered client name leaves the selection
as all clients. -/
theorem selectClients_unknown_filter (clients : List (String × FetchOutcome))
    (f : String) (h : ∀ c ∈ clients, c.1 ≠ pyLower f) :
    selectClients clients (some f) = clients := by
  have hfalse : (clients.any fun c => c.1 = pyLower f) = false := by
    rw [List.any_eq_false]
    intro c hc
    simpa using h c hc
  simp [selectClients, hfalse]

/-- C7, amended.  When the `source_filter` matches no registered provider
name (case-insensitively), `run_update` logs a warning and ignores the
filter: it behaves exactly as a filterless update over all registered
providers (not zero providers). -/
theorem c7_unknown_filter_uses_all_providers
    (clients : List (String × FetchOutcome)) (f : String) (st : StoreState)
    (now : String) (h : ∀ c ∈ clients, c.1 ≠ pyLower f) :
    run_update clients (some f) st now = run_update clients none st now := by
  unfold run_update
  rw [selectClients_unknown_filter clients f h]
  rfl

/-- Witness for C7: provider name `y`, unknown filter `BOGUS`. -/
theorem c7_unknown_filter_uses_all_providers_witness :
    run_update [("y", .ok [("C_USD", 5/2)])] (some "BOGUS") emptyStore "t1"
      = run_update [("y", .ok [("C_USD", 5/2)])] none emptyStore "t1" :=
  c7_unknown_filter_uses_all_providers
    [("y", .ok [("C_USD", 5/2)])] "BOGUS" emptyStore "t1"
    (by
      intro c hc
      rw [List.mem_singleton] at hc
      subst hc
      decide)

/-!
## Valuation claims
-/

/-- A store caching only `BTC_USD = 60000`. -/
def btcStore : RatesDict :=
  [("BTC_USD", ⟨some 60000, some "t0"⟩)]

/-- Unfolding of the report loop of `show_portfolio`: the accumulated lines
are the per-currency lines in order and the accumulated total is the sum of
their values. -/
theorem report_foldl (rates : RatesDict) (base : String)
    (ws : List (String × ℚ)) (ls : List ReportLine) (t : ℚ) :
    ws.foldl
        (fun acc cw =>
          let v := portfolio_line_value rates base cw.1 cw.2
          (acc.1 ++ [⟨cw.1, cw.2, v⟩], acc.2 + v))
        (ls, t)
      = (ls ++ ws.map
            (fun cw => ⟨cw.1, cw.2, portfolio_line_value rates base cw.1 cw.2⟩),
         t + (ws.map
            (fun cw => portfolio_line_value rates base cw.1 cw.2)).sum) := by
  induction ws generalizing ls t with
  | nil => simp
  | cons cw rest ih =>
    simp only [List.foldl_cons, List.map_cons, List.sum_cons, ih,
      List.append_assoc, List.singleton_append, add_assoc]

/-- C8, amended.  The valuation of `show_portfolio` /
`Portfolio.get_total_value`: the concrete portfolio
`{BTC: 0.05, USD: 100}` against base `USD` with cached `BTC_USD = 60000`
totals exactly 3100 under both functions; a base-currency balance is added
directly; a currency with a (truthy) direct cached rate contributes
`balance * rate`; a currency with no cached rate in either direction
contributes 0 (the function is total — nothing is raised); and the reported
total is always the sum of the per-line values. -/
theorem c8_portfolio_valuation :
    show_portfolio_report [("BTC", 1/20), ("USD", 100)] "USD" btcStore
        = .ok ([⟨"BTC", 1/20, 3000⟩, ⟨"USD", 100, 100⟩], 3100)
    ∧ get_total_value [("BTC", 1/20), ("USD", 100)] "USD" btcStore = 3100
    ∧ (∀ (rates : RatesDict) (base : String) (bal : ℚ),
        portfolio_line_value rates base base bal = bal)
    ∧ (∀ (rates : RatesDict) (base code : String) (bal : ℚ) (e : RateEntry),
        code ≠ base →
        dictGetTruthy rates (get_rate_key code base) = some e →
        portfolio_line_value rates base code bal = bal * e.rate.getD 0)
    ∧ (∀ (rates : RatesDict) (base code : String) (bal : ℚ),
        code ≠ base →
        dictGetTruthy rates (get_rate_key code base) = none →
        dictGetTruthy rates (get_rate_key base code) = none →
        portfolio_line_value rates base code bal = 0)
    ∧ (∀ (wallets : List (String × ℚ)) (base : String) (rates : RatesDict)
        (lines : List ReportLine) (t : ℚ),
        show_portfolio_report wallets base rates = .ok (lines, t) →
        t = (lines.map ReportLine.value_in_base).sum) := by
  refine ⟨?_, ?_, ?_, ?_, ?_, ?_⟩
  · simp +decide [show_portfolio_report, validate_currency_code, pyStrip,
      pyUpper, sortByKey, insertSorted, keyLe, charListLe,
      portfolio_line_value, dictGetTruthy, dictGet, get_rate_key,
      RateEntry.truthy, btcStore]
    norm_num
  · simp +decide [get_total_value, dictGet, pyUpper, btcStore]
    norm_num
  · intro rates base bal
    simp [portfolio_line_value]
  · intro rates base code bal e hne hd
    unfold portfolio_line_value
    rw [if_neg hne, hd]
  · intro rates base code bal hne hd hrev
    unfold portfolio_line_value
    rw [if_neg hne, hd, hrev]
  · intro wallets base rates lines t h
    unfold show_portfolio_report at h
    split at h
    · cases h
    · split at h
      · simp only [Except.ok.injEq, Prod.mk.injEq] at h
        obtain ⟨hl, ht⟩ := h
        subst hl
        subst ht
        simp
      · rw [report_foldl] at h
        simp only [List.nil_append, zero_add, Except.ok.injEq,
          Prod.mk.injEq] at h
        obtain ⟨hl, ht⟩ := h
        subst hl
        subst ht
        simp only [List.map_map]
        rfl

/-- Witness for C8: `BTC` priced by the direct cached rate contributes
`balance * rate`; `SOL` with an empty cache contributes 0. -/
theorem c8_portfolio_valuation_witness :
    portfolio_line_value btcStore "USD" "BTC" (1/20)
        = (1/20) * (RateEntry.rate ⟨some 60000, some "t0"⟩).getD 0
    ∧ portfolio_line_value [] "USD" "SOL" 1 = 0 := by
  constructor
  · exact c8_portfolio_valuation.2.2.2.1 btcStore "USD" "BTC" (1/20)
      ⟨some 60000, some "t0"⟩ (by decide)
      (by simp +decide [dictGetTruthy, dictGet, get_rate_key, pyUpper,
        RateEntry.truthy, btcStore])
  · exact c8_portfolio_valuation.2.2.2.2.1 [] "USD" "SOL" 1 (by decide)
      rfl rfl

/-- C8, "flagged unpriced" refuted.  For a held currency with no cached
rate in either direction, the report produced by `show_portfolio` is
identical to the report produced when the currency has a cached direct rate
of 0: the line carries only (code, balance, value) and the value is 0 in
both cases, so nothing distinguishes "unpriced" from "priced at zero" — no
unpriced flag exists in the output. -/
theorem c8_unpriced_currency_not_flagged :
    show_portfolio_report [("SOL", 1)] "USD" []
        = show_portfolio_report [("SOL", 1)] "USD"
            [("SOL_USD", ⟨some 0, some "t0"⟩)]
    ∧ show_portfolio_report [("SOL", 1)] "USD" [] = .ok ([⟨"SOL", 1, 0⟩], 0) := by
  constructor <;>
    simp +decide [show_portfolio_report, validate_currency_code, pyStrip,
      pyUpper, sortByKey, insertSorted, keyLe, charListLe,
      portfolio_line_value, dictGetTruthy, dictGet, get_rate_key,
      RateEntry.truthy]

/-!
## Persistence labelling (C10)
-/

/-- Association-list lookup on a cons cell. -/
theorem dictGet_cons {α : Type} (p : String × α) (t : List (String × α))
    (k : String) :
    dictGet (p :: t) k = if p.1 = k then some p.2 else dictGet t k := by
  by_cases h : p.1 = k <;> simp [dictGet, List.find?, h]

/-- Looking up a key just inserted by dict assignment yields the inserted
value. -/
theorem dictGet_insert_self {α : Type} (l : List (String × α)) (k : String)
    (v : α) : dictGet (dictInsert l k v) k = some v := by
  induction l with
  | nil => simp [dictInsert, dictGet_cons]
  | cons p t ih =>
    by_cases h : p.1 = k
    · rw [dictInsert, if_pos h, dictGet_cons]
      simp
    · rw [dictInsert, if_neg h, dictGet_cons, if_neg h]
      exact ih

/-- Dict assignment at one key does not change lookups at other keys. -/
theorem dictGet_insert_other {α : Type} (l : List (String × α))
    (k k' : String) (v : α) (h : k' ≠ k) :
    dictGet (dictInsert l k v) k' = dictGet l k' := by
  induction l with
  | nil => simp [dictInsert, dictGet_cons, Ne.symm h, dictGet]
  | cons p t ih =>
    by_cases hp : p.1 = k
    · rw [dictInsert, if_pos hp, dictGet_cons, dictGet_cons,
        if_neg (Ne.symm h), if_neg (hp ▸ Ne.symm h)]
    · rw [dictInsert, if_neg hp, dictGet_cons, dictGet_cons]
      by_cases hp' : p.1 = k'
      · rw [if_pos hp', if_pos hp']
      · rw [if_neg hp', if_neg hp']
        exact ih

/-- The upsert loop of `_update_cache` leaves keys outside the fetched
mapping untouched. -/
theorem upsertPairs_not_mem (rates : List (String × ℚ))
    (pairs : List (String × CachedPair)) (ts src k : String)
    (hk : k ∉ rates.map Prod.fst) :
    dictGet (upsertPairs pairs rates ts src) k = dictGet pairs k := by
  induction rates generalizing pairs with
  | nil => rfl
  | cons p rest ih =>
    simp only [List.map_cons, List.mem_cons, not_or] at hk
    obtain ⟨hne, hrest⟩ := hk
    simp only [upsertPairs]
    rw [ih _ hrest, dictGet_insert_other _ _ _ _ hne]

/-- Every key of the fetched mapping ends up in the cache with the update
timestamp and the given source label. -/
theorem upsertPairs_mem (rates : List (String × ℚ))
    (pairs : List (String × CachedPair)) (ts src k : String)
    (hk : k ∈ rates.map Prod.fst) :
    ∃ r, dictGet (upsertPairs pairs rates ts src) k = some ⟨r, ts, src⟩ := by
  induction rates generalizing pairs with
  | nil => cases hk
  | cons p rest ih =>
    by_cases hmem : k ∈ rest.map Prod.fst
    · exact ih _ hmem
    · simp only [List.map_cons, List.mem_cons] at hk
      rcases hk with hk | hk
    
      · subst hk
        refine ⟨p.2, ?_⟩
        simp only [upsertPairs]
        rw [upsertPairs_not_mem _ _ _ _ _ hmem, dictGet_insert_self]
      · exact absurd hk hmem

/-- Every record present after `_save_to_history` was either already in the
history or carries the given source label. -/
theorem saveToHistory_source (rates : List (String × ℚ)) (ts src : String)
    (hist : List HistoryRecord) (rec : HistoryRecord)
    (h : rec ∈ saveToHistory rates ts src hist) :
    rec ∈ hist ∨ rec.source = src := by
  induction rates generalizing hist with
  | nil => exact Or.inl h
  | cons p rest ih =>
    rw [saveToHistory] at h
    split at h
    · split at h
      · exact ih _ h
      · rcases ih _ h with hmem | hsrc
        · rcases List.mem_append.mp hmem with hmem | hmem
          · exact Or.inl hmem
          · rw [List.mem_singleton] at hmem
            subst hmem
            exact Or.inr rfl
        · exact Or.inr hsrc
    · exact ih _ h

/-- Appending the same suffix to different strings keeps them different. -/
theorem string_append_right_ne (a b s : String) (h : a ≠ b) :
    a ++ s ≠ b ++ s := by
  intro he
  apply h
  have hd : a.data ++ s.data = b.data ++ s.data := congrArg String.data he
  have hab : a.data = b.data := List.append_cancel_right hd
  exact congrArg String.mk hab

/-- `_save_to_history` only appends: every record of the starting history
is still present afterwards. -/
theorem saveToHistory_mono (rates : List (String × ℚ)) (ts src : String)
    (hist : List HistoryRecord) (rec : HistoryRecord) (h : rec ∈ hist) :
    rec ∈ saveToHistory rates ts src hist := by
  induction rates generalizing hist with
  | nil => exact h
  | cons p rest ih =>
    rw [saveToHistory]
    split
    · split
      · exact ih _ h
      · exact ih _ (List.mem_append_left _ h)
    · exact ih _ h

/-- Every fetched pair whose key splits into two currency codes and whose
`(pair, timestamp)` id is not already present gets a record appended by
`_save_to_history`, carrying the given timestamp and source label. -/
theorem saveToHistory_mem (rates : List (String × ℚ)) (ts src : String)
    (hist : List HistoryRecord) (k a b : String)
    (hk : k ∈ rates.map Prod.fst)
    (hsplit : pySplitUnderscore k = [a, b])
    (hfresh : ∀ rec ∈ hist, rec.id ≠ k ++ "_" ++ ts) :
    ∃ r, (⟨k ++ "_" ++ ts, a, b, r, ts, src⟩ : HistoryRecord)
      ∈ saveToHistory rates ts src hist := by
  induction rates generalizing hist with
  | nil => cases hk
  | cons p rest ih =>
    obtain ⟨k', r'⟩ := p
    by_cases hkk : k' = k
    · rw [hkk]
      have hany : (hist.any fun h => h.id = k ++ "_" ++ ts) = false := by
        rw [List.any_eq_false]
        intro rec hrec
        simpa using hfresh rec hrec
      refine ⟨r', ?_⟩
      simp only [saveToHistory, hsplit, hany, Bool.false_eq_true, if_false,
        ite_false]
      exact saveToHistory_mono _ _ _ _ _
        (List.mem_append_right _ (List.mem_singleton_self _))
    · have hkr : k ∈ rest.map Prod.fst := by
        simp only [List.map_cons, List.mem_cons] at hk
        rcases hk with hk | hk
        · exact absurd hk.symm hkk
        · exact hk
      rw [saveToHistory]
      split
      · split
        · exact ih _ hkr hfresh
        · refine ih _ hkr ?_
          intro rec hrec
          rcases List.mem_append.mp hrec with hrec | hrec
          · exact hfresh rec hrec
          · rw [List.mem_singleton] at hrec
            subst hrec
            exact string_append_right_ne _ _ ts
              (string_append_right_ne k' k "_" hkk)
      · exact ih _ hkr hfresh

/-- The merged mapping accumulated by the polling loop depends only on the
providers' outcomes, not on their names (names only enter log and error
messages). -/
theorem collectLoop_fst_names (cs₁ cs₂ : List (String × FetchOutcome))
    (acc : List (String × ℚ)) (errs₁ errs₂ : List String)
    (h : cs₁.map Prod.snd = cs₂.map Prod.snd) :
    (collectLoop acc errs₁ cs₁).1 = (collectLoop acc errs₂ cs₂).1 := by
  induction cs₁ generalizing cs₂ acc errs₁ errs₂ with
  | nil =>
    cases cs₂ with
    | nil => rfl
    | cons c₂ rest₂ => simp at h
  | cons c rest ih =>
    cases cs₂ with
    | nil => simp at h
    | cons c₂ rest₂ =>
      simp only [List.map_cons, List.cons.injEq] at h
      obtain ⟨hsnd, hrest⟩ := h
      obtain ⟨n, o⟩ := c
      obtain ⟨n₂, o₂⟩ := c₂
      dsimp only at hsnd
      subst hsnd
      cases o with
      | ok rates =>
        by_cases hr : rates.isEmpty <;>
          simp only [collectLoop, hr, if_true, if_false, Bool.false_eq_true,
            ite_false, ite_true] <;>
          exact ih _ _ _ _ hrest
      | error r =>
        simp only [collectLoop]
        exact ih _ _ _ _ hrest

/-- The persisted state after `run_update`: unchanged on the empty-merge
error path, otherwise the result of `save_rates` on the merged mapping. -/
theorem run_update_snd (clients : List (String × FetchOutcome))
    (sf : Option String) (st : StoreState) (now : String) :
    (run_update clients sf st now).2
      = if (collectLoop [] [] (selectClients clients sf)).1.isEmpty then st
        else save_rates (collectLoop [] [] (selectClients clients sf)).1
          "ParserService" st now := by
  unfold run_update
  by_cases h : (collectLoop [] [] (selectClients clients sf)).1.isEmpty <;>
    simp [h]

/-- C10.  Every pair committed by `run_update` is persisted in the rate
cache with the update timestamp and the fixed source label
`"ParserService"`; every committed pair (well-formed key, id not already
present) also gets a history record appended with the same timestamp and
the same fixed label; every history record added by the run carries that
label; and the persisted state does not depend on the provider names at
all (providers with the same outcomes yield the identical persisted
state), so the originating provider is recorded nowhere. -/
theorem c10_fixed_parser_service_source :
    (∀ (clients : List (String × FetchOutcome)) (sf : Option String)
        (st : StoreState) (now k : String),
        k ∈ (collectLoop [] [] (selectClients clients sf)).1.map Prod.fst →
        ∃ r, dictGet (run_update clients sf st now).2.cache.pairs k
          = some ⟨r, now, "ParserService"⟩)
    ∧ (∀ (clients : List (String × FetchOutcome)) (sf : Option String)
        (st : StoreState) (now k a b : String),
        k ∈ (collectLoop [] [] (selectClients clients sf)).1.map Prod.fst →
        pySplitUnderscore k = [a, b] →
        (∀ rec ∈ st.history, rec.id ≠ k ++ "_" ++ now) →
        ∃ r, (⟨k ++ "_" ++ now, a, b, r, now, "ParserService"⟩ : HistoryRecord)
          ∈ (run_update clients sf st now).2.history)
    ∧ (∀ (clients : List (String × FetchOutcome)) (sf : Option String)
        (st : StoreState) (now : String) (rec : HistoryRecord),
        rec ∈ (run_update clients sf st now).2.history →
        rec ∈ st.history ∨ rec.source = "ParserService")
    ∧ (∀ (clients₁ clients₂ : List (String × FetchOutcome)) (st : StoreState)
        (now : String),
        clients₁.map Prod.snd = clients₂.map Prod.snd →
        (run_update clients₁ none st now).2
          = (run_update clients₂ none st now).2) := by
  refine ⟨?_, ?_, ?_, ?_⟩
  · intro clients sf st now k hk
    have hne : ¬(collectLoop [] [] (selectClients clients sf)).1.isEmpty = true := by
      intro he
      rw [List.isEmpty_iff] at he
      rw [he] at hk
      cases hk
    rw [run_update_snd, if_neg hne]
    exact upsertPairs_mem _ _ _ _ _ hk
  · intro clients sf st now k a b hk hsplit hfresh
    have hne : ¬(collectLoop [] [] (selectClients clients sf)).1.isEmpty = true := by
      intro he
      rw [List.isEmpty_iff] at he
      rw [he] at hk
      cases hk
    rw [run_update_snd, if_neg hne]
    exact saveToHistory_mem _ _ _ _ _ _ _ hk hsplit hfresh
  · intro clients sf st now rec h
    rw [run_update_snd] at h
    by_cases he : (collectLoop [] [] (selectClients clients sf)).1.isEmpty
    · rw [if_pos he] at h
      exact Or.inl h
    · rw [if_neg he] at h
      exact saveToHistory_source _ _ _ _ _ h
  · intro clients₁ clients₂ st now hmap
    have h1 : (collectLoop [] [] clients₁).1 = (collectLoop [] [] clients₂).1 :=
      collectLoop_fst_names clients₁ clients₂ [] [] [] hmap
    rw [run_update_snd, run_update_snd]
    simp only [selectClients]
    rw [h1]

/-- Witness for C10: a single provider `P` committing `A_USD = 2`; the
cache entry carries timestamp `t7` and source `ParserService` (not `P`),
and a history record `A_USD_t7` with the same label is appended. -/
theorem c10_fixed_parser_service_source_witness :
    (∃ r, dictGet (run_update [("P", .ok [("A_USD", 2)])] none emptyStore
        "t7").2.cache.pairs "A_USD" = some ⟨r, "t7", "ParserService"⟩)
    ∧ (∃ r, (⟨"A_USD" ++ "_" ++ "t7", "A", "USD", r, "t7", "ParserService"⟩ :
          HistoryRecord)
        ∈ (run_update [("P", .ok [("A_USD", 2)])] none emptyStore
            "t7").2.history) :=
  ⟨c10_fixed_parser_service_source.1 [("P", .ok [("A_USD", 2)])] none
    emptyStore "t7" "A_USD"
    (by simp +decide [collectLoop, selectClients, dictInsert]),
   c10_fixed_parser_service_source.2.1 [("P", .ok [("A_USD", 2)])] none
    emptyStore "t7" "A_USD" "A" "USD"
    (by simp +decide [collectLoop, selectClients, dictInsert])
    (by decide)
    (by intro rec hrec; simp [emptyStore] at hrec)⟩
